import Mathlib

/-!
Shallow embedding of the two libevdev diagnostic tools
(`mouse-dpi-tool`, given as `src/unnamed/part_000`, and
`src/tools/touchpad-edge-detector.c`) and proofs about the claims of the
specification.

Conventions of the embedding:
* `struct input_event` becomes `InputEvent`; the `timeval` is collapsed to
  its microsecond value (`tv2us`), which is how both tools consume it.
* C `double` timestamps are modelled as `ℚ` (all values that actually occur
  are integral microsecond counts, exactly representable in `double`).
* C `int` values are modelled as `ℤ`; signed-overflow behaviour is undefined
  in C and is not modelled.
* Arrays are lists; the statically zero-initialised 32-entry window is a
  list of 32 zeros.
* Reading an array element that the program never wrote (possible in
  `get_frequency` when fewer than `EVENT_SIZ / 2 + 1` differences were
  collected) has no defined value; `get_frequency` returns `none` there.
-/

/-- Input event: type, code, value and the `tv2us` of its timestamp. -/
structure InputEvent where
  type : ℕ
  code : ℕ
  value : ℤ
  timeUs : ℕ
deriving DecidableEq

/-- Linux input event type `EV_SYN`. -/
def EV_SYN : ℕ := 0

/-- Linux input event type `EV_REL`. -/
def EV_REL : ℕ := 2

/-- Linux input event type `EV_ABS`. -/
def EV_ABS : ℕ := 3

/-- Linux relative axis code `REL_X`. -/
def REL_X : ℕ := 0

/-- Linux absolute axis code `ABS_X`. -/
def ABS_X : ℕ := 0

/-- Linux absolute axis code `ABS_Y`. -/
def ABS_Y : ℕ := 1

/-- Linux absolute axis code `ABS_MT_POSITION_X` (0x35). -/
def ABS_MT_POSITION_X : ℕ := 53

/-- Linux absolute axis code `ABS_MT_POSITION_Y` (0x36). -/
def ABS_MT_POSITION_Y : ℕ := 54

/-- C `INT_MAX` on the target platforms (32-bit `int`). -/
def INT_MAX : ℤ := 2 ^ 31 - 1

/-- C `INT_MIN` on the target platforms (32-bit `int`). -/
def INT_MIN : ℤ := -(2 ^ 31)

namespace Mouse

/-- `#define EVENT_SIZ 32` from the mouse tool. -/
def EVENT_SIZ : ℕ := 32

/-- One iteration of the difference-collecting loop of `get_frequency`:
for index `i`, with `next_index = (i + 1) % EVENT_SIZ`, append
`event_times[next_index] - event_times[i]` when
`event_times[i] < event_times[next_index]` and fewer than `EVENT_SIZ - 1`
entries have been written (`d_index < EVENT_SIZ - 1`).  The accumulator is
the written prefix of the `differences` array, so `d_index = acc.length`. -/
def diffStep (event_times : List ℚ) (acc : List ℚ) (i : ℕ) : List ℚ :=
  if event_times.getD i 0 < event_times.getD ((i + 1) % EVENT_SIZ) 0 ∧
      acc.length < EVENT_SIZ - 1 then
    acc ++ [event_times.getD ((i + 1) % EVENT_SIZ) 0 - event_times.getD i 0]
  else
    acc

/-- The written prefix of the `differences` array after the full loop
`for (i = 0; i < EVENT_SIZ; ++i)` of `get_frequency`. -/
def collectDiffs (event_times : List ℚ) : List ℚ :=
  (List.range EVENT_SIZ).foldl (diffStep event_times) []

/-- `get_frequency`: collect the guarded forward differences around the
logical ring, `qsort` the written prefix ascending, and return
`1000000.0 / differences[EVENT_SIZ / 2]`.  When index `EVENT_SIZ / 2` lies
beyond the written prefix the C code reads uninitialised memory; the model
returns `none` there. -/
def get_frequency (event_times : List ℚ) : Option ℚ :=
  let sorted := (collectDiffs event_times).insertionSort (· ≤ ·)
  if EVENT_SIZ / 2 < sorted.length then
    some (1000000 / sorted.getD (EVENT_SIZ / 2) 0)
  else
    none

end Mouse

namespace Mouse

lemma foldl_diffStep (ts : List ℚ) (idxs : List ℕ) : ∀ acc : List ℚ,
    idxs.foldl (diffStep ts) acc =
      acc ++ ((idxs.filter fun i =>
          ts.getD i 0 < ts.getD ((i + 1) % EVENT_SIZ) 0).take
            (EVENT_SIZ - 1 - acc.length)).map
        (fun i => ts.getD ((i + 1) % EVENT_SIZ) 0 - ts.getD i 0) := by
  induction idxs with
  | nil => intro acc; simp
  | cons i rest ih =>
    intro acc
    rw [List.foldl_cons, List.filter_cons]
    by_cases hp : ts.getD i 0 < ts.getD ((i + 1) % EVENT_SIZ) 0
    · rw [if_pos (by simpa using hp)]
      by_cases hl : acc.length < EVENT_SIZ - 1
      · have hstep : diffStep ts acc i =
            acc ++ [ts.getD ((i + 1) % EVENT_SIZ) 0 - ts.getD i 0] := by
          unfold diffStep
          rw [if_pos ⟨hp, hl⟩]
        rw [hstep, ih]
        have harith : EVENT_SIZ - 1 - acc.length =
            (EVENT_SIZ - 1 - (acc ++
              [ts.getD ((i + 1) % EVENT_SIZ) 0 - ts.getD i 0]).length) + 1 := by
          simp only [List.length_append, List.length_cons, List.length_nil]
          omega
        rw [harith, List.take_succ_cons, List.map_cons]
        simp
      · have hstep : diffStep ts acc i = acc := by
          simp only [diffStep, ite_eq_right_iff]
          intro hcontra
          exact absurd hcontra.2 hl
        have h0 : EVENT_SIZ - 1 - acc.length = 0 := Nat.sub_eq_zero_of_le (le_of_not_lt hl)
        rw [hstep, ih, h0]
        simp
    · rw [if_neg (by simpa using hp)]
      have hstep : diffStep ts acc i = acc := by
        simp only [diffStep, ite_eq_right_iff]
        intro hcontra
        exact absurd hcontra.1 hp
      rw [hstep, ih]

/-- Declarative characterisation of the difference-collecting loop: the
written prefix of `differences` consists of the forward ring differences at
the first `EVENT_SIZ - 1` positions whose next timestamp is strictly
greater, in loop order. -/
lemma collectDiffs_eq (ts : List ℚ) :
    collectDiffs ts =
      (((List.range EVENT_SIZ).filter fun i =>
          ts.getD i 0 < ts.getD ((i + 1) % EVENT_SIZ) 0).take (EVENT_SIZ - 1)).map
        (fun i => ts.getD ((i + 1) % EVENT_SIZ) 0 - ts.getD i 0) := by
  have h := foldl_diffStep ts (List.range EVENT_SIZ) []
  simpa [collectDiffs] using h

/-- For a 32-entry window of pairwise strictly increasing timestamps,
exactly the 31 adjacent positions qualify: the wraparound pair `(31, 0)` is
rejected by the strict-increase guard. -/
lemma filter_range_of_inc (ts : List ℚ) (h32 : ts.length = 32)
    (hp : ts.Pairwise (· < ·)) :
    (List.range EVENT_SIZ).filter
        (fun i => ts.getD i 0 < ts.getD ((i + 1) % EVENT_SIZ) 0) = List.range 31 := by
  have hget := List.pairwise_iff_getElem.mp hp
  have hmain : (List.range 31).filter
      (fun i => ts.getD i 0 < ts.getD ((i + 1) % EVENT_SIZ) 0) = List.range 31 := by
    refine List.filter_eq_self.mpr ?_
    intro i hi
    have hi31 : i < 31 := List.mem_range.mp hi
    have hmod : (i + 1) % EVENT_SIZ = i + 1 :=
      Nat.mod_eq_of_lt (by simp only [EVENT_SIZ]; omega)
    have hib : i < ts.length := by omega
    have hib1 : i + 1 < ts.length := by omega
    have h1 : ts.getD i 0 = ts[i] := List.getD_eq_getElem ts 0 hib
    have h2 : ts.getD (i + 1) 0 = ts[i + 1] := List.getD_eq_getElem ts 0 hib1
    have := hget i (i + 1) hib hib1 (by omega)
    simp only [hmod, h1, h2]
    exact decide_eq_true this
  have hlast : ¬ (ts.getD 31 0 < ts.getD ((31 + 1) % EVENT_SIZ) 0) := by
    have hmod : (31 + 1) % EVENT_SIZ = 0 := by decide
    have hb31 : 31 < ts.length := by omega
    have hb0 : 0 < ts.length := by omega
    have h1 : ts.getD 31 0 = ts[31] := List.getD_eq_getElem ts 0 hb31
    have h2 : ts.getD 0 0 = ts[0] := List.getD_eq_getElem ts 0 hb0
    have := hget 0 31 hb0 hb31 (by omega)
    rw [hmod, h1, h2]
    exact not_lt_of_gt this
  have hlastf : ([31] : List ℕ).filter
      (fun i => ts.getD i 0 < ts.getD ((i + 1) % EVENT_SIZ) 0) = [] := by
    rw [List.filter_cons, if_neg (by simpa using hlast), List.filter_nil]
  have hsplit : List.range EVENT_SIZ = List.range 31 ++ [31] := by decide
  rw [hsplit, List.filter_append, hmain, hlastf, List.append_nil]

/-- For a 32-entry strictly increasing window, the loop writes the 31
adjacent forward differences. -/
lemma collectDiffs_of_inc (ts : List ℚ) (h32 : ts.length = 32)
    (hp : ts.Pairwise (· < ·)) :
    collectDiffs ts = (List.range 31).map (fun i => ts.getD (i + 1) 0 - ts.getD i 0) := by
  rw [collectDiffs_eq, filter_range_of_inc ts h32 hp]
  have htake : (List.range 31).take (EVENT_SIZ - 1) = List.range 31 := by
    apply List.take_of_length_le
    simp [EVENT_SIZ]
  rw [htake]
  refine List.map_congr_left ?_
  intro i hi
  have hi31 : i < 31 := List.mem_range.mp hi
  have hmod : (i + 1) % EVENT_SIZ = i + 1 :=
    Nat.mod_eq_of_lt (by simp only [EVENT_SIZ]; omega)
  rw [hmod]

lemma insertionSort_replicate (c : ℚ) (n : ℕ) :
    (List.replicate n c).insertionSort (· ≤ ·) = List.replicate n c := by
  induction n with
  | zero => rfl
  | succ k ih =>
    rw [List.replicate_succ, List.insertionSort, ih]
    cases k with
    | zero => rfl
    | succ j => simp [List.replicate_succ, List.orderedInsert]

/-- A 32-entry window of timestamps starting at `t0` with constant
inter-event spacing `d` (microseconds): the input family of claim C2. -/
def constWindow (t0 d : ℚ) : List ℚ :=
  (List.range EVENT_SIZ).map fun i : ℕ => t0 + (i : ℚ) * d

lemma constWindow_length (t0 d : ℚ) : (constWindow t0 d).length = 32 := by
  simp [constWindow, EVENT_SIZ]

lemma constWindow_getD (t0 d : ℚ) (i : ℕ) (h : i < 32) :
    (constWindow t0 d).getD i 0 = t0 + (i : ℚ) * d := by
  have hlen : (constWindow t0 d).length = 32 := constWindow_length t0 d
  rw [List.getD_eq_getElem _ _ (by omega)]
  simp [constWindow]

lemma constWindow_pairwise (t0 d : ℚ) (hd : 0 < d) :
    (constWindow t0 d).Pairwise (· < ·) := by
  unfold constWindow
  refine List.pairwise_map.mpr ?_
  refine (List.pairwise_lt_range EVENT_SIZ).imp ?_
  intro a b hab
  have hcast : (a : ℚ) < (b : ℚ) := by exact_mod_cast hab
  have := mul_lt_mul_of_pos_right hcast hd
  linarith

lemma collectDiffs_constWindow (t0 d : ℚ) (hd : 0 < d) :
    collectDiffs (constWindow t0 d) = List.replicate 31 d := by
  rw [collectDiffs_of_inc _ (constWindow_length t0 d) (constWindow_pairwise t0 d hd)]
  rw [List.eq_replicate_iff]
  constructor
  · simp
  · intro b hb
    obtain ⟨i, hi, rfl⟩ := List.mem_map.mp hb
    have hi31 : i < 31 := List.mem_range.mp hi
    rw [constWindow_getD _ _ _ (by omega), constWindow_getD _ _ _ (by omega)]
    push_cast
    ring

/-- Modelled from the spec's words only (for comparison with the code): the
median of a sorted odd-length list is its middle element, index
`(length - 1) / 2`. -/
def specMedian (l : List ℚ) : ℚ := l.getD ((l.length - 1) / 2) 0

/-- A 32-entry strictly increasing window whose first sixteen gaps are 1 µs
and whose last fifteen gaps are 2 µs: the sorted difference list is sixteen
ones followed by fifteen twos, so its median (index 15) is 1 while the
entry at index `EVENT_SIZ / 2 = 16` read by the code is 2. -/
def c1Window : List ℚ :=
  [0, 1, 2, 3, 4, 5, 6, 7, 8, 9, 10, 11, 12, 13, 14, 15, 16,
   18, 20, 22, 24, 26, 28, 30, 32, 34, 36, 38, 40, 42, 44, 46]

/-- `struct measurements` of the mouse tool. -/
structure Measurements where
  distance : ℤ
  frequency : ℚ
  us : ℕ
deriving DecidableEq

/-- The `static` locals of `handle_event`: the circular timestamp window,
its write index, and the window-valid flag. -/
structure WindowState where
  event_times : List ℚ
  event_times_index : ℕ
  event_list_valid : Bool
deriving DecidableEq

/-- Full mutable state touched by the mouse tool's `handle_event`. -/
structure MouseState where
  m : Measurements
  w : WindowState
deriving DecidableEq

/-- `const int idle_reset = 3000000; /* us */` -/
def idle_reset : ℕ := 3000000

/-- `handle_event` of the mouse tool.  Returns the successor state and
whether the call printed a progress line (`print_current_values`).

On `EV_SYN`: `m->us` is updated from the event time; if
`last_us + idle_reset < m->us` the idle reset clears frequency, distance,
the window index and the valid flag (and returns without printing);
otherwise the timestamp is written into the ring at the current index, the
index advances (wrapping to 0 and setting the valid flag at `EVENT_SIZ`),
the peak frequency is updated from `get_frequency` when the window is
valid, and a progress line is printed.  (When `get_frequency` reads
uninitialised memory — `none` in the model — the C result is unspecified;
the model keeps the previous frequency, and no theorem below depends on
that choice.)  On `EV_REL`/`REL_X` the value is added to the distance;
all other events are ignored. -/
def handle_event (s : MouseState) (ev : InputEvent) : MouseState × Bool :=
  if ev.type = EV_SYN then
    let last_us := s.m.us
    let us' := ev.timeUs
    if last_us + idle_reset < us' then
      ({ m := { distance := 0, frequency := 0, us := us' },
         w := { s.w with event_times_index := 0, event_list_valid := false } },
       false)
    else
      let et := s.w.event_times.set s.w.event_times_index (us' : ℚ)
      let idx1 := s.w.event_times_index + 1
      let valid' := if idx1 = EVENT_SIZ then true else s.w.event_list_valid
      let idx' := if idx1 = EVENT_SIZ then 0 else idx1
      let freq' :=
        if valid' then
          match get_frequency et with
          | some f => max f s.m.frequency
          | none => s.m.frequency
        else s.m.frequency
      ({ m := { distance := s.m.distance, frequency := freq', us := us' },
         w := { event_times := et, event_times_index := idx', event_list_valid := valid' } },
       true)
  else if ev.type ≠ EV_REL then
    (s, false)
  else if ev.code = REL_X then
    ({ s with m := { s.m with distance := s.m.distance + ev.value } }, false)
  else
    (s, false)

/-- Start state: `struct measurements measurements = {0, 0, 0}` and the
zero-initialised static window. -/
def initialState : MouseState :=
  { m := { distance := 0, frequency := 0, us := 0 },
    w := { event_times := List.replicate EVENT_SIZ 0,
           event_times_index := 0, event_list_valid := false } }

/-- Folding `handle_event` over a list of events, as the `mainloop` does
for each successfully read event. -/
def processEvents (evs : List InputEvent) : MouseState :=
  evs.foldl (fun s ev => (handle_event s ev).1) initialState

/-- `print_summary` prints `m->distance = abs(m->distance)`. -/
def summaryDistance (m : Measurements) : ℤ := |m.distance|

/-- The signed sum of the values of the `EV_REL`/`REL_X` events in a list. -/
def relXSum (evs : List InputEvent) : ℤ :=
  ((evs.filter fun e => e.type = EV_REL ∧ e.code = REL_X).map
    (fun e => e.value)).sum

/-- Spec-side bookkeeping for claim C4: running through the trace, keep the
last `EV_SYN` timestamp and the list of events handled since the most
recent idle reset (all events, from the start, if no reset occurred). -/
def sinceResetStep (p : ℕ × List InputEvent) (ev : InputEvent) :
    ℕ × List InputEvent :=
  if ev.type = EV_SYN then
    if p.1 + idle_reset < ev.timeUs then (ev.timeUs, [])
    else (ev.timeUs, p.2 ++ [ev])
  else (p.1, p.2 ++ [ev])

/-- The events handled since the most recent idle reset of the trace. -/
def eventsSinceReset (evs : List InputEvent) : List InputEvent :=
  (evs.foldl sinceResetStep (0, [])).2

end Mouse

/-- Claim C2: for every 32-entry window of strictly increasing timestamps
with constant inter-event spacing `d > 0` (microseconds), `get_frequency`
returns `1000000 / d`, i.e. `1 / d` in Hz.  (Timestamps are modelled as
exact rationals, so the result is exact rather than merely within
floating-point tolerance.) -/
theorem mouse_get_frequency_const_spacing (t0 d : ℚ) (hd : 0 < d) :
    Mouse.get_frequency (Mouse.constWindow t0 d) = some (1000000 / d) := by
  unfold Mouse.get_frequency
  rw [Mouse.collectDiffs_constWindow t0 d hd, Mouse.insertionSort_replicate]
  have hE : Mouse.EVENT_SIZ / 2 = 16 := rfl
  rw [hE, if_pos (by simp)]
  have hgd : (List.replicate 31 d).getD 16 0 = d := by
    rw [List.getD_eq_getElem _ _ (by simp)]
    simp
  rw [hgd]

/-- Witness for C2 at `t0 = 0`, `d = 1`. -/
theorem mouse_get_frequency_const_spacing_witness :
    (0 : ℚ) < 1 ∧
      Mouse.get_frequency (Mouse.constWindow 0 1) = some (1000000 / 1) :=
  ⟨by norm_num, mouse_get_frequency_const_spacing 0 1 (by norm_num)⟩

set_option maxRecDepth 1000000 in
unseal Rat.sub Rat.add Rat.mul Rat.inv in
/-- Claim C1 (counterexample): on the concrete strictly increasing window
`c1Window` the code returns `1000000 / 2 = 500000` (it reads index
`EVENT_SIZ / 2 = 16` of the 31 sorted differences), which is not
`1000000 /` the median of the sorted differences (the median, index 15 of
31, is 1). -/
theorem mouse_get_frequency_not_median :
    Mouse.get_frequency Mouse.c1Window = some 500000 ∧
      Mouse.specMedian ((Mouse.collectDiffs Mouse.c1Window).insertionSort (· ≤ ·)) = 1 ∧
      Mouse.get_frequency Mouse.c1Window ≠
        some (1000000 /
          Mouse.specMedian ((Mouse.collectDiffs Mouse.c1Window).insertionSort (· ≤ ·))) := by
  refine ⟨by decide, by decide, ?_⟩
  intro h
  have h1 : Mouse.get_frequency Mouse.c1Window = some 500000 := by decide
  have h2 : Mouse.specMedian
      ((Mouse.collectDiffs Mouse.c1Window).insertionSort (· ≤ ·)) = 1 := by decide
  rw [h1, h2] at h
  norm_num at h

/-- Claim C1 (amended): whenever the loop writes more than `EVENT_SIZ / 2`
differences, `get_frequency` computes the guarded forward ring differences
in loop order (capped at `EVENT_SIZ - 1` entries), sorts them ascending,
and returns `1000000` divided by the entry at index `EVENT_SIZ / 2 = 16` of
the sorted list — one position past the median when all 31 differences are
present. -/
theorem mouse_get_frequency_sorted_index16 (ts : List ℚ)
    (h : Mouse.EVENT_SIZ / 2 < (Mouse.collectDiffs ts).length) :
    Mouse.collectDiffs ts =
      (((List.range Mouse.EVENT_SIZ).filter fun i =>
          ts.getD i 0 < ts.getD ((i + 1) % Mouse.EVENT_SIZ) 0).take
            (Mouse.EVENT_SIZ - 1)).map
        (fun i => ts.getD ((i + 1) % Mouse.EVENT_SIZ) 0 - ts.getD i 0) ∧
      List.Sorted (· ≤ ·) ((Mouse.collectDiffs ts).insertionSort (· ≤ ·)) ∧
      ((Mouse.collectDiffs ts).insertionSort (· ≤ ·)).Perm (Mouse.collectDiffs ts) ∧
      Mouse.get_frequency ts =
        some (1000000 /
          ((Mouse.collectDiffs ts).insertionSort (· ≤ ·)).getD (Mouse.EVENT_SIZ / 2) 0) := by
  refine ⟨Mouse.collectDiffs_eq ts, List.sorted_insertionSort _ _,
    List.perm_insertionSort _ _, ?_⟩
  unfold Mouse.get_frequency
  rw [if_pos (by simpa using h)]

set_option maxRecDepth 1000000 in
unseal Rat.sub Rat.add Rat.mul Rat.inv in
/-- Witness for the amended C1 at the concrete window `c1Window`. -/
theorem mouse_get_frequency_sorted_index16_witness :
    Mouse.EVENT_SIZ / 2 < (Mouse.collectDiffs Mouse.c1Window).length ∧
      Mouse.get_frequency Mouse.c1Window =
        some (1000000 /
          ((Mouse.collectDiffs Mouse.c1Window).insertionSort (· ≤ ·)).getD
            (Mouse.EVENT_SIZ / 2) 0) :=
  ⟨by decide, (mouse_get_frequency_sorted_index16 Mouse.c1Window (by decide)).2.2.2⟩

set_option maxRecDepth 1000000 in
unseal Rat.sub Rat.add Rat.mul Rat.inv in
/-- Claim C9: on a window of 32 pairwise-equal timestamps no forward
difference is strictly positive, so no entry of `differences` is written
and the read of `differences[EVENT_SIZ / 2]` is uninitialised (`none` in
the model); whereas for every 32-entry strictly increasing window the loop
writes exactly 31 differences and the read index 16 lies within the
written range. -/
theorem mouse_get_frequency_uninitialised_read (ts : List ℚ)
    (h32 : ts.length = 32) (hinc : ts.Pairwise (· < ·)) :
    Mouse.collectDiffs (List.replicate 32 (0 : ℚ)) = [] ∧
      Mouse.get_frequency (List.replicate 32 (0 : ℚ)) = none ∧
      (Mouse.collectDiffs ts).length = 31 ∧
      Mouse.EVENT_SIZ / 2 < (Mouse.collectDiffs ts).length := by
  have hlen : (Mouse.collectDiffs ts).length = 31 := by
    rw [Mouse.collectDiffs_of_inc ts h32 hinc]
    simp
  exact ⟨by decide, by decide, hlen, by rw [hlen]; simp [Mouse.EVENT_SIZ]⟩

set_option maxRecDepth 1000000 in
unseal Rat.sub Rat.add Rat.mul Rat.inv in
/-- Witness for C9 at the strictly increasing window `constWindow 0 1`. -/
theorem mouse_get_frequency_uninitialised_read_witness :
    (Mouse.constWindow 0 1).length = 32 ∧
      Mouse.get_frequency (List.replicate 32 (0 : ℚ)) = none ∧
      (Mouse.collectDiffs (Mouse.constWindow 0 1)).length = 31 :=
  ⟨Mouse.constWindow_length 0 1,
    (mouse_get_frequency_uninitialised_read (Mouse.constWindow 0 1)
      (Mouse.constWindow_length 0 1) (Mouse.constWindow_pairwise 0 1 (by norm_num))).2.1,
    (mouse_get_frequency_uninitialised_read (Mouse.constWindow 0 1)
      (Mouse.constWindow_length 0 1) (Mouse.constWindow_pairwise 0 1 (by norm_num))).2.2.1⟩

namespace Mouse

lemma relXSum_append_single (l : List InputEvent) (e : InputEvent) :
    relXSum (l ++ [e]) =
      relXSum l + (if e.type = EV_REL ∧ e.code = REL_X then e.value else 0) := by
  unfold relXSum
  rw [List.filter_append, List.map_append, List.sum_append]
  by_cases hc : e.type = EV_REL ∧ e.code = REL_X
  · simp [hc]
  · simp [hc]

lemma step_preserves (s : MouseState) (p : ℕ × List InputEvent) (ev : InputEvent)
    (h1 : s.m.us = p.1) (h2 : s.m.distance = relXSum p.2) :
    (handle_event s ev).1.m.us = (sinceResetStep p ev).1 ∧
    (handle_event s ev).1.m.distance = relXSum (sinceResetStep p ev).2 := by
  by_cases hsyn : ev.type = EV_SYN
  · unfold handle_event sinceResetStep
    rw [if_pos hsyn, if_pos hsyn, h1]
    by_cases hc : p.1 + idle_reset < ev.timeUs
    · rw [if_pos hc, if_pos hc]
      refine ⟨rfl, ?_⟩
      simp [relXSum]
    · rw [if_neg hc, if_neg hc]
      refine ⟨rfl, ?_⟩
      rw [relXSum_append_single, if_neg, add_zero]
      · exact h2
      · rintro ⟨habs, -⟩
        rw [hsyn] at habs
        exact absurd habs (by decide)
  · unfold handle_event sinceResetStep
    rw [if_neg hsyn, if_neg hsyn]
    by_cases hrel : ev.type = EV_REL
    · rw [if_neg (by simpa using hrel)]
      by_cases hcode : ev.code = REL_X
      · rw [if_pos hcode]
        refine ⟨h1, ?_⟩
        rw [relXSum_append_single, if_pos ⟨hrel, hcode⟩]
        simpa using congrArg (fun z => z + ev.value) h2
      · rw [if_neg hcode]
        refine ⟨h1, ?_⟩
        rw [relXSum_append_single, if_neg, add_zero]
        · exact h2
        · rintro ⟨-, habs⟩
          exact absurd habs hcode
    · rw [if_pos (by simpa using hrel)]
      refine ⟨h1, ?_⟩
      rw [relXSum_append_single, if_neg, add_zero]
      · exact h2
      · rintro ⟨habs, -⟩
        exact absurd habs hrel

lemma fold_invariant (evs : List InputEvent) :
    ∀ (s : MouseState) (p : ℕ × List InputEvent),
      s.m.us = p.1 → s.m.distance = relXSum p.2 →
      (evs.foldl (fun s ev => (handle_event s ev).1) s).m.us =
          (evs.foldl sinceResetStep p).1 ∧
      (evs.foldl (fun s ev => (handle_event s ev).1) s).m.distance =
          relXSum (evs.foldl sinceResetStep p).2 := by
  induction evs with
  | nil => intro s p h1 h2; exact ⟨h1, h2⟩
  | cons ev rest ih =>
    intro s p h1 h2
    rw [List.foldl_cons, List.foldl_cons]
    have hstep := step_preserves s p ev h1 h2
    exact ih _ _ hstep.1 hstep.2

end Mouse

/-- Claim C4: after processing any event trace, the accumulated distance
field equals the signed sum of the values of the `EV_REL`/`REL_X` events
handled since the most recent idle reset (or since start), and the distance
printed by the final summary is the absolute value of that sum. -/
theorem mouse_distance_signed_sum (evs : List InputEvent) :
    (Mouse.processEvents evs).m.distance =
        Mouse.relXSum (Mouse.eventsSinceReset evs) ∧
    Mouse.summaryDistance (Mouse.processEvents evs).m =
        |Mouse.relXSum (Mouse.eventsSinceReset evs)| := by
  have h := Mouse.fold_invariant evs Mouse.initialState (0, []) rfl rfl
  have hd : (Mouse.processEvents evs).m.distance =
      Mouse.relXSum (Mouse.eventsSinceReset evs) := h.2
  refine ⟨hd, ?_⟩
  unfold Mouse.summaryDistance
  rw [hd]

set_option maxRecDepth 10000 in
/-- Claim C3 (counterexample): two consecutive `EV_SYN` events whose
timestamp gap is exactly 3,000,000 µs (at least 3,000,000, as the claim
requires) do not trigger the idle reset: the code's guard is strict
(`last_us + idle_reset < m->us`), so the second event takes the window
branch and advances the window index to 2 instead of resetting it to 0. -/
theorem mouse_idle_reset_boundary_counterexample :
    (Mouse.handle_event Mouse.initialState ⟨EV_SYN, 0, 0, 1000⟩).1.m.us = 1000 ∧
    (Mouse.handle_event
        (Mouse.handle_event Mouse.initialState ⟨EV_SYN, 0, 0, 1000⟩).1
        ⟨EV_SYN, 0, 0, 3001000⟩).1.w.event_times_index = 2 := by
  constructor
  · rfl
  · decide

/-- Claim C3 (amended): for an `EV_SYN` event, the idle reset — distance 0,
frequency 0, window index 0, valid flag cleared — happens exactly when the
gap is strictly greater than 3,000,000 µs (`last_us + idle_reset < m->us`);
when the gap is at most 3,000,000 µs the window branch runs instead, and it
never leaves the state with both window index 0 and valid flag cleared. -/
theorem mouse_idle_reset_strict (s : Mouse.MouseState) (ev : InputEvent)
    (hsyn : ev.type = EV_SYN) :
    (s.m.us + Mouse.idle_reset < ev.timeUs →
      (Mouse.handle_event s ev).1.m.distance = 0 ∧
      (Mouse.handle_event s ev).1.m.frequency = 0 ∧
      (Mouse.handle_event s ev).1.w.event_times_index = 0 ∧
      (Mouse.handle_event s ev).1.w.event_list_valid = false) ∧
    (ev.timeUs ≤ s.m.us + Mouse.idle_reset →
      ¬((Mouse.handle_event s ev).1.w.event_times_index = 0 ∧
        (Mouse.handle_event s ev).1.w.event_list_valid = false)) := by
  unfold Mouse.handle_event
  rw [if_pos hsyn]
  by_cases hc : s.m.us + Mouse.idle_reset < ev.timeUs
  · rw [if_pos hc]
    exact ⟨fun _ => ⟨rfl, rfl, rfl, rfl⟩, fun hle => absurd hc (not_lt_of_ge hle)⟩
  · rw [if_neg hc]
    refine ⟨fun hlt => absurd hlt hc, fun _ => ?_⟩
    dsimp only
    rintro ⟨hidx, hval⟩
    by_cases hwrap : s.w.event_times_index + 1 = Mouse.EVENT_SIZ
    · rw [if_pos hwrap] at hval
      exact Bool.noConfusion hval
    · rw [if_neg hwrap] at hidx
      exact Nat.succ_ne_zero _ hidx

/-- Witness for the amended C3: a gap of 3,000,001 µs does reset. -/
theorem mouse_idle_reset_strict_witness :
    (⟨EV_SYN, 0, 0, 3000001⟩ : InputEvent).type = EV_SYN ∧
      Mouse.initialState.m.us + Mouse.idle_reset <
        (⟨EV_SYN, 0, 0, 3000001⟩ : InputEvent).timeUs ∧
      (Mouse.handle_event Mouse.initialState ⟨EV_SYN, 0, 0, 3000001⟩).1.w.event_times_index = 0 :=
  ⟨rfl, by decide,
    ((mouse_idle_reset_strict Mouse.initialState ⟨EV_SYN, 0, 0, 3000001⟩ rfl).1
      (by decide)).2.2.1⟩

/-- Claim C10: because `measurements` starts with `us = 0`, the very first
`EV_SYN` event with timestamp above 3,000,000 µs takes the idle-reset
branch: its timestamp is not written into the window, the window stays
invalid with index 0, nothing is printed, and distance and frequency are
(re)set to zero. -/
theorem mouse_first_syn_takes_reset (t : ℕ) (h : 3000000 < t) :
    Mouse.handle_event Mouse.initialState ⟨EV_SYN, 0, 0, t⟩ =
      ({ m := { distance := 0, frequency := 0, us := t },
         w := Mouse.initialState.w }, false) := by
  unfold Mouse.handle_event
  rw [if_pos rfl, if_pos (by simpa [Mouse.initialState, Mouse.idle_reset] using h)]
  rfl

/-- Witness for C10 at `t = 3000001`. -/
theorem mouse_first_syn_takes_reset_witness :
    3000000 < 3000001 ∧
      Mouse.handle_event Mouse.initialState ⟨EV_SYN, 0, 0, 3000001⟩ =
        ({ m := { distance := 0, frequency := 0, us := 3000001 },
           w := Mouse.initialState.w }, false) :=
  ⟨by norm_num, mouse_first_syn_takes_reset 3000001 (by norm_num)⟩

namespace Touchpad

/-- `struct dimensions` of the touchpad tool. -/
structure Dimensions where
  top : ℤ
  bottom : ℤ
  left : ℤ
  right : ℤ
deriving DecidableEq

/-- `handle_event` of the touchpad tool: `EV_SYN` prints the current
values and changes nothing; non-`EV_ABS` events are ignored; `ABS_X` /
`ABS_MT_POSITION_X` narrow `left`/`right` by `min`/`max`, and `ABS_Y` /
`ABS_MT_POSITION_Y` narrow `top`/`bottom`. -/
def handle_event (d : Dimensions) (ev : InputEvent) : Dimensions :=
  if ev.type = EV_SYN then d
  else if ev.type ≠ EV_ABS then d
  else if ev.code = ABS_X ∨ ev.code = ABS_MT_POSITION_X then
    { d with left := min d.left ev.value, right := max d.right ev.value }
  else if ev.code = ABS_Y ∨ ev.code = ABS_MT_POSITION_Y then
    { d with top := min d.top ev.value, bottom := max d.bottom ev.value }
  else d

/-- `dim` as initialised in `main` before `mainloop`:
`left = INT_MAX, right = INT_MIN, top = INT_MAX, bottom = INT_MIN`. -/
def initialDim : Dimensions :=
  { top := INT_MAX, bottom := INT_MIN, left := INT_MAX, right := INT_MIN }

/-- Folding `handle_event` from the initial dimensions over a trace. -/
def processEvents (evs : List InputEvent) : Dimensions :=
  evs.foldl handle_event initialDim

/-- The values of the `EV_ABS` events of the trace whose code is `ABS_X`
or `ABS_MT_POSITION_X`. -/
def xValues (evs : List InputEvent) : List ℤ :=
  (evs.filter fun e =>
    e.type = EV_ABS ∧ (e.code = ABS_X ∨ e.code = ABS_MT_POSITION_X)).map
      (fun e => e.value)

/-- The values of the `EV_ABS` events of the trace whose code is `ABS_Y`
or `ABS_MT_POSITION_Y`. -/
def yValues (evs : List InputEvent) : List ℤ :=
  (evs.filter fun e =>
    e.type = EV_ABS ∧ (e.code = ABS_Y ∨ e.code = ABS_MT_POSITION_Y)).map
      (fun e => e.value)

lemma fold_minmax (evs : List InputEvent) : ∀ d : Dimensions,
    (evs.foldl handle_event d).left = (xValues evs).foldl min d.left ∧
    (evs.foldl handle_event d).right = (xValues evs).foldl max d.right ∧
    (evs.foldl handle_event d).top = (yValues evs).foldl min d.top ∧
    (evs.foldl handle_event d).bottom = (yValues evs).foldl max d.bottom := by
  induction evs with
  | nil => intro d; exact ⟨rfl, rfl, rfl, rfl⟩
  | cons ev rest ih =>
    intro d
    rw [List.foldl_cons]
    unfold xValues yValues at ih ⊢
    rw [List.filter_cons, List.filter_cons]
    by_cases hsyn : ev.type = EV_SYN
    · have hnabs : ¬ (ev.type = EV_ABS ∧ (ev.code = ABS_X ∨ ev.code = ABS_MT_POSITION_X)) := by
        rintro ⟨habs, -⟩
        rw [hsyn] at habs
        exact absurd habs (by decide)
      have hnabsy : ¬ (ev.type = EV_ABS ∧ (ev.code = ABS_Y ∨ ev.code = ABS_MT_POSITION_Y)) := by
        rintro ⟨habs, -⟩
        rw [hsyn] at habs
        exact absurd habs (by decide)
      rw [if_neg (by simpa using hnabs), if_neg (by simpa using hnabsy)]
      have hstep : handle_event d ev = d := by
        unfold handle_event
        rw [if_pos hsyn]
      rw [hstep]
      exact ih d
    · by_cases habs : ev.type = EV_ABS
      · by_cases hx : ev.code = ABS_X ∨ ev.code = ABS_MT_POSITION_X
        · have hny : ¬ (ev.type = EV_ABS ∧ (ev.code = ABS_Y ∨ ev.code = ABS_MT_POSITION_Y)) := by
            rintro ⟨-, hy⟩
            rcases hx with hx | hx <;> rcases hy with hy | hy <;>
              (rw [hx] at hy; exact absurd hy (by decide))
          rw [if_pos (by simpa using ⟨habs, hx⟩), if_neg (by simpa using hny)]
          have hstep : handle_event d ev =
              { d with left := min d.left ev.value, right := max d.right ev.value } := by
            unfold handle_event
            rw [if_neg hsyn, if_neg (by simpa using habs), if_pos hx]
          rw [hstep, List.map_cons, List.foldl_cons, List.foldl_cons]
          exact ih _
        · by_cases hy : ev.code = ABS_Y ∨ ev.code = ABS_MT_POSITION_Y
          · rw [if_neg (by simpa using fun h : _ ∧ _ => hx h.2),
                if_pos (by simpa using ⟨habs, hy⟩)]
            have hstep : handle_event d ev =
                { d with top := min d.top ev.value, bottom := max d.bottom ev.value } := by
              unfold handle_event
              rw [if_neg hsyn, if_neg (by simpa using habs), if_neg hx, if_pos hy]
            rw [hstep, List.map_cons, List.foldl_cons, List.foldl_cons]
            exact ih _
          · rw [if_neg (by simpa using fun h : _ ∧ _ => hx h.2),
                if_neg (by simpa using fun h : _ ∧ _ => hy h.2)]
            have hstep : handle_event d ev = d := by
              unfold handle_event
              rw [if_neg hsyn, if_neg (by simpa using habs), if_neg hx, if_neg hy]
            rw [hstep]
            exact ih d
      · have hno1 : ¬ (ev.type = EV_ABS ∧ (ev.code = ABS_X ∨ ev.code = ABS_MT_POSITION_X)) :=
          fun h => habs h.1
        have hno2 : ¬ (ev.type = EV_ABS ∧ (ev.code = ABS_Y ∨ ev.code = ABS_MT_POSITION_Y)) :=
          fun h => habs h.1
        rw [if_neg (by simpa using hno1), if_neg (by simpa using hno2)]
        have hstep : handle_event d ev = d := by
          unfold handle_event
          rw [if_neg hsyn, if_pos (by simpa using habs)]
        rw [hstep]
        exact ih d

lemma foldl_min_le_init (t : List ℤ) : ∀ x : ℤ, t.foldl min x ≤ x := by
  induction t with
  | nil => intro x; exact le_refl x
  | cons y t ih =>
    intro x
    rw [List.foldl_cons]
    exact le_trans (ih (min x y)) (min_le_left x y)

lemma init_le_foldl_max (t : List ℤ) : ∀ x : ℤ, x ≤ t.foldl max x := by
  induction t with
  | nil => intro x; exact le_refl x
  | cons y t ih =>
    intro x
    rw [List.foldl_cons]
    exact le_trans (le_max_left x y) (ih (max x y))

lemma foldl_min_pull (t : List ℤ) : ∀ a x : ℤ,
    t.foldl min (min a x) = min a (t.foldl min x) := by
  induction t with
  | nil => intro a x; rfl
  | cons y t ih =>
    intro a x
    rw [List.foldl_cons, List.foldl_cons, min_assoc, ih]

lemma foldl_max_pull (t : List ℤ) : ∀ a x : ℤ,
    t.foldl max (max a x) = max a (t.foldl max x) := by
  induction t with
  | nil => intro a x; rfl
  | cons y t ih =>
    intro a x
    rw [List.foldl_cons, List.foldl_cons, max_assoc, ih]

end Touchpad

set_option maxRecDepth 10000 in
/-- Claim C5 (counterexample): after a single `ABS_X` event (value 5) the
x bounds are tight (`left = right = 5`), but the y bounds still hold their
initial values `top = INT_MAX > bottom = INT_MIN`; so it is not true that
once any event has been observed both `left ≤ right` and `top ≤ bottom`
hold. -/
theorem touchpad_bounds_counterexample :
    ([⟨EV_ABS, ABS_X, 5, 0⟩] : List InputEvent) ≠ [] ∧
    (Touchpad.processEvents [⟨EV_ABS, ABS_X, 5, 0⟩]).left = 5 ∧
    (Touchpad.processEvents [⟨EV_ABS, ABS_X, 5, 0⟩]).right = 5 ∧
    ¬ ((Touchpad.processEvents [⟨EV_ABS, ABS_X, 5, 0⟩]).top ≤
        (Touchpad.processEvents [⟨EV_ABS, ABS_X, 5, 0⟩]).bottom) := by
  refine ⟨by decide, by decide, by decide, by decide⟩

/-- Claim C5 (amended): per axis — once at least one X-coordinate value
(`ABS_X` or `ABS_MT_POSITION_X`) has been observed, `left ≤ right` and
`left`/`right` are exactly the minimum/maximum of all X values delivered;
symmetrically for Y with `top`/`bottom`.  Before the first event of an
axis, that axis's bounds still hold their initial out-of-order extremes.
(Values are `__s32`, hence within `[INT_MIN, INT_MAX]`.) -/
theorem touchpad_bounds_minmax (evs : List InputEvent)
    (hr : ∀ e ∈ evs, INT_MIN ≤ e.value ∧ e.value ≤ INT_MAX) :
    (Touchpad.xValues evs ≠ [] →
      (Touchpad.processEvents evs).left ≤ (Touchpad.processEvents evs).right ∧
      (Touchpad.xValues evs).min? = some (Touchpad.processEvents evs).left ∧
      (Touchpad.xValues evs).max? = some (Touchpad.processEvents evs).right) ∧
    (Touchpad.yValues evs ≠ [] →
      (Touchpad.processEvents evs).top ≤ (Touchpad.processEvents evs).bottom ∧
      (Touchpad.yValues evs).min? = some (Touchpad.processEvents evs).top ∧
      (Touchpad.yValues evs).max? = some (Touchpad.processEvents evs).bottom) := by
  have h := Touchpad.fold_minmax evs Touchpad.initialDim
  have hxmem : ∀ v ∈ Touchpad.xValues evs, INT_MIN ≤ v ∧ v ≤ INT_MAX := by
    intro v hv
    obtain ⟨e, he, rfl⟩ := List.mem_map.mp hv
    exact hr e (List.mem_filter.mp he).1
  have hymem : ∀ v ∈ Touchpad.yValues evs, INT_MIN ≤ v ∧ v ≤ INT_MAX := by
    intro v hv
    obtain ⟨e, he, rfl⟩ := List.mem_map.mp hv
    exact hr e (List.mem_filter.mp he).1
  constructor
  · intro hne
    obtain ⟨x, t, hxt⟩ := List.exists_cons_of_ne_nil hne
    have hxb := hxmem x (by rw [hxt]; exact List.mem_cons_self x t)
    have hleft : (Touchpad.processEvents evs).left = t.foldl min x := by
      have h1 := h.1
      rw [hxt, show Touchpad.initialDim.left = INT_MAX from rfl, List.foldl_cons,
          Touchpad.foldl_min_pull] at h1
      unfold Touchpad.processEvents
      rw [h1]
      exact min_eq_right (le_trans (Touchpad.foldl_min_le_init t x) hxb.2)
    have hright : (Touchpad.processEvents evs).right = t.foldl max x := by
      have h1 := h.2.1
      rw [hxt, show Touchpad.initialDim.right = INT_MIN from rfl, List.foldl_cons,
          Touchpad.foldl_max_pull] at h1
      unfold Touchpad.processEvents
      rw [h1]
      exact max_eq_right (le_trans hxb.1 (Touchpad.init_le_foldl_max t x))
    refine ⟨?_, ?_, ?_⟩
    · rw [hleft, hright]
      exact le_trans (Touchpad.foldl_min_le_init t x) (Touchpad.init_le_foldl_max t x)
    · rw [hxt, List.min?_cons', hleft]
    · rw [hxt, List.max?_cons', hright]
  · intro hne
    obtain ⟨y, t, hyt⟩ := List.exists_cons_of_ne_nil hne
    have hyb := hymem y (by rw [hyt]; exact List.mem_cons_self y t)
    have htop : (Touchpad.processEvents evs).top = t.foldl min y := by
      have h1 := h.2.2.1
      rw [hyt, show Touchpad.initialDim.top = INT_MAX from rfl, List.foldl_cons,
          Touchpad.foldl_min_pull] at h1
      unfold Touchpad.processEvents
      rw [h1]
      exact min_eq_right (le_trans (Touchpad.foldl_min_le_init t y) hyb.2)
    have hbottom : (Touchpad.processEvents evs).bottom = t.foldl max y := by
      have h1 := h.2.2.2
      rw [hyt, show Touchpad.initialDim.bottom = INT_MIN from rfl, List.foldl_cons,
          Touchpad.foldl_max_pull] at h1
      unfold Touchpad.processEvents
      rw [h1]
      exact max_eq_right (le_trans hyb.1 (Touchpad.init_le_foldl_max t y))
    refine ⟨?_, ?_, ?_⟩
    · rw [htop, hbottom]
      exact le_trans (Touchpad.foldl_min_le_init t y) (Touchpad.init_le_foldl_max t y)
    · rw [hyt, List.min?_cons', htop]
    · rw [hyt, List.max?_cons', hbottom]

set_option maxRecDepth 10000 in
/-- Witness for the amended C5 at a two-event trace with one X and one Y
value. -/
theorem touchpad_bounds_minmax_witness :
    (Touchpad.xValues [⟨EV_ABS, ABS_X, 5, 0⟩, ⟨EV_ABS, ABS_Y, 7, 0⟩]).min? =
        some (Touchpad.processEvents
          [⟨EV_ABS, ABS_X, 5, 0⟩, ⟨EV_ABS, ABS_Y, 7, 0⟩]).left ∧
    (Touchpad.processEvents [⟨EV_ABS, ABS_X, 5, 0⟩, ⟨EV_ABS, ABS_Y, 7, 0⟩]).top ≤
        (Touchpad.processEvents [⟨EV_ABS, ABS_X, 5, 0⟩, ⟨EV_ABS, ABS_Y, 7, 0⟩]).bottom :=
  ⟨((touchpad_bounds_minmax _ (by decide)).1 (by decide)).2.1,
    ((touchpad_bounds_minmax _ (by decide)).2 (by decide)).1⟩

/-- Outcome of one `libevdev_next_event` call inside the drain loop, as the
tools classify the return code `rc`:
`success` = `LIBEVDEV_READ_STATUS_SUCCESS` (an event was filled in),
`sync` = `LIBEVDEV_READ_STATUS_SYNC`,
`again` = `-EAGAIN` (queue drained, back to waiting),
`err` = any other negative return. -/
inductive ReadResult where
  | success (ev : InputEvent)
  | sync
  | again
  | err (e : ℤ)
deriving DecidableEq

/-- Whether this read outcome makes the drain loop return 1. -/
def ReadResult.fatal : ReadResult → Bool
  | .sync => true
  | .err _ => true
  | _ => false

/-- The events delivered by the `success` entries of a read sequence, in
order. -/
def successEvents : List ReadResult → List InputEvent
  | [] => []
  | .success ev :: rest => ev :: successEvents rest
  | _ :: rest => successEvents rest

/-- The environment a tool's `main` runs in: command line and the outcomes
of the OS/library calls it makes.  `reads` is the sequence of
`libevdev_next_event` outcomes the wait loop will see before the interrupt
signal arrives (the list ending means the signal fd became readable). -/
structure Env where
  argc : ℕ
  pathDash : Bool
  openOk : Bool
  newFromFdRc : ℤ
  grabRc : ℤ
  hasAbsX : Bool
  hasAbsY : Bool
  reads : List ReadResult

/-- Observable outcome of a `main` run: its exit status, whether the wait
loop was entered, and the resource facts claim C8 is about. -/
structure RunResult where
  exitCode : ℤ
  mainloopCalled : Bool
  fdOpened : Bool
  fdClosed : Bool
  devAllocated : Bool
  devFreed : Bool
deriving DecidableEq

namespace Mouse

/-- The mouse tool's `mainloop` read-dispatch, folded over the read
outcomes: `SYNC` and other errors return 1 immediately; `success` events
are passed to `handle_event`; `-EAGAIN` returns to waiting; the interrupt
signal (end of list) breaks the loop with 0. -/
def mainloop (s : MouseState) : List ReadResult → ℤ × MouseState
  | [] => (0, s)
  | .success ev :: rest => mainloop (handle_event s ev).1 rest
  | .sync :: _ => (1, s)
  | .err _ :: _ => (1, s)
  | .again :: rest => mainloop s rest

/-- The mouse tool's `main`: usage check, open, `libevdev_new_from_fd`,
grab probe, then `mainloop`, summary, `libevdev_free` and `close`.  The
early error returns do not free the device handle or close the fd. -/
def main (env : Env) : RunResult :=
  if env.argc < 2 then
    { exitCode := 1, mainloopCalled := false, fdOpened := false,
      fdClosed := false, devAllocated := false, devFreed := false }
  else if env.pathDash then
    { exitCode := 1, mainloopCalled := false, fdOpened := false,
      fdClosed := false, devAllocated := false, devFreed := false }
  else if ¬ env.openOk then
    { exitCode := 1, mainloopCalled := false, fdOpened := false,
      fdClosed := false, devAllocated := false, devFreed := false }
  else if env.newFromFdRc ≠ 0 then
    { exitCode := 1, mainloopCalled := false, fdOpened := true,
      fdClosed := false, devAllocated := false, devFreed := false }
  else if env.grabRc ≠ 0 then
    { exitCode := 1, mainloopCalled := false, fdOpened := true,
      fdClosed := false, devAllocated := true, devFreed := false }
  else
    { exitCode := (mainloop initialState env.reads).1, mainloopCalled := true,
      fdOpened := true, fdClosed := true, devAllocated := true, devFreed := true }

end Mouse

namespace Touchpad

/-- The touchpad tool's `mainloop` read-dispatch (same structure as the
mouse tool's, with `dimensions` state). -/
def mainloop (d : Dimensions) : List ReadResult → ℤ × Dimensions
  | [] => (0, d)
  | .success ev :: rest => mainloop (handle_event d ev) rest
  | .sync :: _ => (1, d)
  | .err _ :: _ => (1, d)
  | .again :: rest => mainloop d rest

/-- The touchpad tool's `main`: like the mouse tool's, but after the grab
probe it additionally requires the `EV_ABS`/`ABS_X` and `EV_ABS`/`ABS_Y`
capabilities; on failure it sets `rc = EXIT_FAILURE` and jumps to `out:`,
which frees the device and closes the fd.  The earlier error returns do
not. -/
def main (env : Env) : RunResult :=
  if env.argc < 2 then
    { exitCode := 1, mainloopCalled := false, fdOpened := false,
      fdClosed := false, devAllocated := false, devFreed := false }
  else if env.pathDash then
    { exitCode := 1, mainloopCalled := false, fdOpened := false,
      fdClosed := false, devAllocated := false, devFreed := false }
  else if ¬ env.openOk then
    { exitCode := 1, mainloopCalled := false, fdOpened := false,
      fdClosed := false, devAllocated := false, devFreed := false }
  else if env.newFromFdRc ≠ 0 then
    { exitCode := 1, mainloopCalled := false, fdOpened := true,
      fdClosed := false, devAllocated := false, devFreed := false }
  else if env.grabRc ≠ 0 then
    { exitCode := 1, mainloopCalled := false, fdOpened := true,
      fdClosed := false, devAllocated := true, devFreed := false }
  else if ¬ (env.hasAbsX ∧ env.hasAbsY) then
    { exitCode := 1, mainloopCalled := false, fdOpened := true,
      fdClosed := true, devAllocated := true, devFreed := true }
  else
    { exitCode := (mainloop initialDim env.reads).1, mainloopCalled := true,
      fdOpened := true, fdClosed := true, devAllocated := true, devFreed := true }

end Touchpad

lemma mouse_mainloop_sync_lemma (post : List ReadResult) (pre : List ReadResult) :
    ∀ s : Mouse.MouseState, (∀ r ∈ pre, r.fatal = false) →
      Mouse.mainloop s (pre ++ ReadResult.sync :: post) =
        (1, (successEvents pre).foldl
              (fun s ev => (Mouse.handle_event s ev).1) s) := by
  induction pre with
  | nil => intro s _; rfl
  | cons r rest ih =>
    intro s hpre
    have hrest : ∀ x ∈ rest, ReadResult.fatal x = false :=
      fun x hx => hpre x (List.mem_cons_of_mem r hx)
    cases r with
    | success ev =>
      rw [List.cons_append]
      show Mouse.mainloop (Mouse.handle_event s ev).1 (rest ++ ReadResult.sync :: post) = _
      rw [ih _ hrest]
      rfl
    | sync =>
      exact absurd (hpre _ (List.mem_cons_self _ _)) (by simp [ReadResult.fatal])
    | err e =>
      exact absurd (hpre _ (List.mem_cons_self _ _)) (by simp [ReadResult.fatal])
    | again =>
      rw [List.cons_append]
      show Mouse.mainloop s (rest ++ ReadResult.sync :: post) = _
      rw [ih _ hrest]
      rfl

lemma touchpad_mainloop_sync_lemma (post : List ReadResult) (pre : List ReadResult) :
    ∀ d : Touchpad.Dimensions, (∀ r ∈ pre, r.fatal = false) →
      Touchpad.mainloop d (pre ++ ReadResult.sync :: post) =
        (1, (successEvents pre).foldl Touchpad.handle_event d) := by
  induction pre with
  | nil => intro d _; rfl
  | cons r rest ih =>
    intro d hpre
    have hrest : ∀ x ∈ rest, ReadResult.fatal x = false :=
      fun x hx => hpre x (List.mem_cons_of_mem r hx)
    cases r with
    | success ev =>
      rw [List.cons_append]
      show Touchpad.mainloop (Touchpad.handle_event d ev) (rest ++ ReadResult.sync :: post) = _
      rw [ih _ hrest]
      rfl
    | sync =>
      exact absurd (hpre _ (List.mem_cons_self _ _)) (by simp [ReadResult.fatal])
    | err e =>
      exact absurd (hpre _ (List.mem_cons_self _ _)) (by simp [ReadResult.fatal])
    | again =>
      rw [List.cons_append]
      show Touchpad.mainloop d (rest ++ ReadResult.sync :: post) = _
      rw [ih _ hrest]
      rfl

/-- Claim C6: when the device setup succeeds but the device lacks the
`EV_ABS`/`ABS_X` or `EV_ABS`/`ABS_Y` capability, the touchpad tool's
`main` exits with status 1 (`EXIT_FAILURE`) and `mainloop` is never
entered. -/
theorem touchpad_missing_axes_exit (env : Env)
    (h2 : 2 ≤ env.argc) (hd : env.pathDash = false) (ho : env.openOk = true)
    (hn : env.newFromFdRc = 0) (hg : env.grabRc = 0)
    (hax : ¬ (env.hasAbsX = true ∧ env.hasAbsY = true)) :
    (Touchpad.main env).exitCode = 1 ∧
      (Touchpad.main env).mainloopCalled = false := by
  unfold Touchpad.main
  rw [if_neg (by omega), if_neg (by simp [hd]), if_neg (by simp [ho]),
      if_neg (by simp [hn]), if_neg (by simp [hg]), if_pos (by simpa using hax)]
  exact ⟨rfl, rfl⟩

/-- Witness for C6: a device exposing only `ABS_Y`. -/
theorem touchpad_missing_axes_exit_witness :
    (Touchpad.main ⟨2, false, true, 0, 0, false, true, []⟩).exitCode = 1 ∧
      (Touchpad.main ⟨2, false, true, 0, 0, false, true, []⟩).mainloopCalled = false :=
  touchpad_missing_axes_exit ⟨2, false, true, 0, 0, false, true, []⟩
    (by norm_num) rfl rfl rfl rfl (by simp)

/-- Claim C7: in either tool, if `libevdev_next_event` reports
`LIBEVDEV_READ_STATUS_SYNC` after a prefix of non-fatal reads, the wait
loop returns 1 immediately — only the events read successfully before the
desynchronisation are handled, none after — and `main` (whose setup
succeeded) exits with status 1. -/
theorem read_sync_terminates (env : Env) (pre post : List ReadResult)
    (h2 : 2 ≤ env.argc) (hd : env.pathDash = false) (ho : env.openOk = true)
    (hn : env.newFromFdRc = 0) (hg : env.grabRc = 0)
    (hx : env.hasAbsX = true) (hy : env.hasAbsY = true)
    (hr : env.reads = pre ++ ReadResult.sync :: post)
    (hpre : ∀ r ∈ pre, r.fatal = false) :
    Mouse.mainloop Mouse.initialState env.reads =
        (1, (successEvents pre).foldl
              (fun s ev => (Mouse.handle_event s ev).1) Mouse.initialState) ∧
    Touchpad.mainloop Touchpad.initialDim env.reads =
        (1, (successEvents pre).foldl Touchpad.handle_event Touchpad.initialDim) ∧
    (Mouse.main env).exitCode = 1 ∧
    (Touchpad.main env).exitCode = 1 := by
  have hm := mouse_mainloop_sync_lemma post pre Mouse.initialState hpre
  have ht := touchpad_mainloop_sync_lemma post pre Touchpad.initialDim hpre
  rw [← hr] at hm ht
  refine ⟨hm, ht, ?_, ?_⟩
  · unfold Mouse.main
    rw [if_neg (by omega), if_neg (by simp [hd]), if_neg (by simp [ho]),
        if_neg (by simp [hn]), if_neg (by simp [hg])]
    simp [hm]
  · unfold Touchpad.main
    rw [if_neg (by omega), if_neg (by simp [hd]), if_neg (by simp [ho]),
        if_neg (by simp [hn]), if_neg (by simp [hg]),
        if_neg (by simp [hx, hy])]
    simp [ht]

/-- Witness for C7: the very first read desynchronises. -/
theorem read_sync_terminates_witness :
    Mouse.mainloop Mouse.initialState [ReadResult.sync] = (1, Mouse.initialState) ∧
      (Touchpad.main ⟨2, false, true, 0, 0, true, true, [ReadResult.sync]⟩).exitCode = 1 :=
  ⟨(read_sync_terminates ⟨2, false, true, 0, 0, true, true, [ReadResult.sync]⟩
      [] [] (by norm_num) rfl rfl rfl rfl rfl rfl rfl (by simp)).1,
    (read_sync_terminates ⟨2, false, true, 0, 0, true, true, [ReadResult.sync]⟩
      [] [] (by norm_num) rfl rfl rfl rfl rfl rfl rfl (by simp)).2.2.2⟩

/-- Claim C8 (counterexample): when the exclusive-grab probe fails, both
tools' `main` return 1 directly with the fd still open and the device
handle still allocated: neither `libevdev_free` nor `close` runs on that
exit path.  (The same holds on the `libevdev_new_from_fd` failure path for
the fd.) -/
theorem main_leaks_on_grab_failure :
    (Touchpad.main ⟨2, false, true, 0, 1, true, true, []⟩).fdOpened = true ∧
    (Touchpad.main ⟨2, false, true, 0, 1, true, true, []⟩).devAllocated = true ∧
    (Touchpad.main ⟨2, false, true, 0, 1, true, true, []⟩).fdClosed = false ∧
    (Touchpad.main ⟨2, false, true, 0, 1, true, true, []⟩).devFreed = false ∧
    (Mouse.main ⟨2, false, true, 0, 1, true, true, []⟩).fdClosed = false ∧
    (Mouse.main ⟨2, false, true, 0, 1, true, true, []⟩).devFreed = false := by
  refine ⟨by decide, by decide, by decide, by decide, by decide, by decide⟩

/-- Claim C8 (amended): the device handle is freed and the fd closed on
every exit path that passes the grab probe — for the touchpad tool this
includes the missing-axes `goto out` path — while the earlier error
returns (info-fetch failure, grab failure) exit without freeing or
closing. -/
theorem main_frees_after_grab (env : Env)
    (h2 : 2 ≤ env.argc) (hd : env.pathDash = false) (ho : env.openOk = true)
    (hn : env.newFromFdRc = 0) (hg : env.grabRc = 0) :
    (Mouse.main env).devFreed = true ∧ (Mouse.main env).fdClosed = true ∧
    (Touchpad.main env).devFreed = true ∧ (Touchpad.main env).fdClosed = true := by
  have hmouse : Mouse.main env =
      { exitCode := (Mouse.mainloop Mouse.initialState env.reads).1,
        mainloopCalled := true, fdOpened := true, fdClosed := true,
        devAllocated := true, devFreed := true } := by
    unfold Mouse.main
    rw [if_neg (by omega), if_neg (by simp [hd]), if_neg (by simp [ho]),
        if_neg (by simp [hn]), if_neg (by simp [hg])]
  refine ⟨by rw [hmouse], by rw [hmouse], ?_, ?_⟩ <;>
  · unfold Touchpad.main
    rw [if_neg (by omega), if_neg (by simp [hd]), if_neg (by simp [ho]),
        if_neg (by simp [hn]), if_neg (by simp [hg])]
    by_cases hax : (env.hasAbsX = true) ∧ (env.hasAbsY = true)
    · rw [if_neg (by simpa using not_not_intro hax)]
    · rw [if_pos (by simpa using hax)]

/-- Witness for the amended C8: a fully successful setup with an empty
read sequence. -/
theorem main_frees_after_grab_witness :
    (Mouse.main ⟨2, false, true, 0, 0, true, true, []⟩).devFreed = true ∧
      (Touchpad.main ⟨2, false, true, 0, 0, true, true, []⟩).fdClosed = true :=
  ⟨(main_frees_after_grab ⟨2, false, true, 0, 0, true, true, []⟩
      (by norm_num) rfl rfl rfl rfl).1,
    (main_frees_after_grab ⟨2, false, true, 0, 0, true, true, []⟩
      (by norm_num) rfl rfl rfl rfl).2.2.2⟩
